import Mathlib

/-!
Verification of the AG Grid demo component (`src/agGrid.tsx`).

The component's state is an in-memory ordered list of customer records
(`rowData`).  We embed the record type, the row generator `generateData`,
the button handlers `onAddRow`, the delete and toggle branches of
`onCellClicked`, `onResetData`, the helper `formatCurrency`, and
`restoreColumnState`.

JavaScript platform primitives are modelled explicitly:
* `Math.random()` draws become explicit rational-valued streams
  (one per call site), constrained to `[0, 1)` where a claim needs it;
* `Number.prototype.toFixed(2)` becomes `toFixed2` (round half toward
  `+∞` on the exact rational, as ECMA-262 specifies for the ideal case);
* `toLocaleString('pt-BR', currency BRL)` becomes `formatBRL`
  (round half away from zero, grouping by thousands, NBSP after `R$`);
* `Number(value)` coercion becomes `jsNumber` over a `JsValue` type
  (decimal string literals; `Infinity`/hex forms are out of the model);
* `JSON.parse` throwing becomes a well-formedness check `jsonOk` over
  the JSON grammar: numbers without leading zeros, strings restricted
  to the JSON escape set with no raw control characters;
* `new Date(...).toISOString().slice(0,10)` becomes `isoDate`
  (the UTC-timezone reading of the local-time constructor).
-/

/-- One grid row, matching the object literals built in `generateData`
(lines 41–50) and `onAddRow` (lines 168–177) of `src/agGrid.tsx`. -/
structure Row where
  id : Nat
  name : String
  age : Nat
  city : String
  product : String
  amount : String
  active : Bool
  joined : String
deriving DecidableEq, Repr, Inhabited

/-- Left-pad a numeral to two digits (used for months, days, cents). -/
def pad2s (n : Nat) : String :=
  if n < 10 then "0" ++ toString n else toString n

/-- Left-pad a numeral to four digits (ISO year). -/
def pad4s (n : Nat) : String :=
  if n < 10 then "000" ++ toString n
  else if n < 100 then "00" ++ toString n
  else if n < 1000 then "0" ++ toString n
  else toString n

/-- Model of `new Date(y, m, d).toISOString().slice(0,10)` under UTC:
`m` is the zero-based month of the JS `Date` constructor. -/
def isoDate (y m d : Nat) : String :=
  pad4s y ++ "-" ++ pad2s (m + 1) ++ "-" ++ pad2s d

/-- Model of `x.toFixed(2)` on the exact rational value: the integer `n`
closest to `x * 100`, ties resolved to the larger `n` (ECMA-262
`Number.prototype.toFixed`), printed with exactly two fraction digits. -/
def toFixed2 (q : ℚ) : String :=
  let n : ℤ := ⌊q * 100 + 1 / 2⌋
  let sign := if n < 0 then "-" else ""
  sign ++ toString (n.natAbs / 100) ++ "." ++ pad2s (n.natAbs % 100)

/-- The ten city names of `generateData` (line 37). -/
def cities : List String :=
  ["São Paulo", "Rio de Janeiro", "Belo Horizonte", "Porto Alegre", "Curitiba",
   "Salvador", "Fortaleza", "Recife", "Manaus", "Brasília"]

/-- The ten product names of `generateData` (line 38). -/
def products : List String :=
  ["Vinho", "Café", "Queijo", "Cerveja", "Chocolate",
   "Azeite", "Pão", "Suco", "Arroz", "Feijão"]

/-- The row pushed at index `i` of the generation loop (lines 41–50).
`randAge i` and `randAmt i` are the two `Math.random()` draws made for
row `i`; they take values in `[0, 1)`. -/
def genRow (randAge randAmt : Nat → ℚ) (i : Nat) : Row :=
  { id := i
    name := "Cliente " ++ toString i
    age := (⌊randAge i * 60⌋).toNat + 18
    city := cities.getD (i % cities.length) ""
    product := products.getD (i % products.length) ""
    amount := toFixed2 (randAmt i * 1000)
    active := i % 3 != 0
    joined := isoDate (2020 + i % 6) (i % 12) (i % 28 + 1) }

/-- `generateData` (lines 36–53): the loop runs `i = 1 .. 100` and pushes
one row per iteration. -/
def generateData (randAge randAmt : Nat → ℚ) : List Row :=
  (List.range 100).map (fun k => genRow randAge randAmt (k + 1))

/-- `Math.max(...)` over the spread of a list; the code only applies it
to non-empty lists (it guards on `prev.length`), where this recursion is
exactly the maximum element. -/
def listMax : List Nat → Nat
  | [] => 0
  | a :: rest => max a (listMax rest)

/-- The four city names of `onAddRow` (line 172). -/
def addCities : List String :=
  ["São Paulo", "Rio de Janeiro", "Belo Horizonte", "Porto Alegre"]

/-- The three product names of `onAddRow` (line 173). -/
def addProducts : List String :=
  ["Vinho", "Café", "Queijo"]

/-- `onAddRow` (lines 165–180): computes
`nextId = (prev.length ? Math.max(...prev.map(r => r.id)) : 0) + 1`,
builds `newRow` and returns `[newRow, ...prev]`.  `randAge` and
`randAmt` are the two `Math.random()` draws; `today` is the result of
`new Date().toISOString().slice(0,10)`. -/
def onAddRow (randAge randAmt : ℚ) (today : String) (prev : List Row) : List Row :=
  let nextId := (if prev.length != 0 then listMax (prev.map Row.id) else 0) + 1
  let newRow : Row :=
    { id := nextId
      name := "Cliente " ++ toString nextId
      age := (⌊randAge * 60⌋).toNat + 18
      city := addCities.getD (nextId % 4) ""
      product := addProducts.getD (nextId % 3) ""
      amount := toFixed2 (randAmt * 1000)
      active := true
      joined := today }
  newRow :: prev

/-- The state update of the `del` action of `onCellClicked` (line 155),
run after the user confirms:
`prev.filter(r => String(r.id) !== String(id))`.  The target `id` comes
from `dataset.id`, already a string, so `String(id) = id`. -/
def deleteRow (target : String) (rows : List Row) : List Row :=
  rows.filter (fun r => toString r.id != target)

/-- The state update of the `edit` action of `onCellClicked` (line 160):
`prev.map(r => String(r.id) === String(id) ? { ...r, active: !r.active } : r)`. -/
def toggleRow (target : String) (rows : List Row) : List Row :=
  rows.map (fun r =>
    if toString r.id = target then { r with active := !r.active } else r)

/-- `onResetData` (lines 183–186): a confirmation guard, then
`setRowData(generateData())`. -/
def onResetData (confirmed : Bool) (randAge randAmt : Nat → ℚ)
    (cur : List Row) : List Row :=
  if confirmed then generateData randAge randAmt else cur

/-- The row sequence has pairwise-distinct ids. -/
abbrev distinctIds (rows : List Row) : Prop := (rows.map Row.id).Nodup

/-- A concrete two-row state with distinct ids, for instantiations. -/
def exRows : List Row :=
  [{ id := 1, name := "Ana", age := 30, city := "Recife", product := "Café",
     amount := "10.00", active := true, joined := "2024-01-02" },
   { id := 2, name := "Bia", age := 40, city := "Manaus", product := "Suco",
     amount := "20.00", active := false, joined := "2024-02-03" }]

/-- A concrete state holding two rows that share id `1`. -/
def dupRows : List Row :=
  [{ id := 1, name := "Ana", age := 30, city := "Recife", product := "Café",
     amount := "10.00", active := true, joined := "2024-01-02" },
   { id := 1, name := "Bia", age := 40, city := "Manaus", product := "Suco",
     amount := "20.00", active := false, joined := "2024-02-03" }]

/-- `listMax` bounds every element of the list. -/
theorem le_listMax {l : List Nat} {x : Nat} (hx : x ∈ l) : x ≤ listMax l := by
  induction l with
  | nil => cases hx
  | cons a rest ih =>
    rcases List.mem_cons.mp hx with rfl | h
    · exact le_max_left _ _
    · exact le_trans (ih h) (le_max_right _ _)

/-- On a non-empty list, `listMax` is attained. -/
theorem listMax_mem {l : List Nat} (h : l ≠ []) : listMax l ∈ l := by
  induction l with
  | nil => exact absurd rfl h
  | cons a rest ih =>
    by_cases hr : rest = []
    · subst hr
      simp [listMax]
    · rcases le_total a (listMax rest) with hle | hle
      · have : listMax (a :: rest) = listMax rest := by
          simp [listMax, max_eq_right hle]
        rw [this]
        exact List.mem_cons_of_mem _ (ih hr)
      · have : listMax (a :: rest) = a := by
          simp [listMax, max_eq_left hle]
        rw [this]
        exact List.mem_cons_self _ _

example : (generateData (fun _ => 0) (fun _ => 0)).length = 100 := by decide
example : listMax [3, 7, 2] = 7 := by decide

/-- C1: `onAddRow` grows the sequence by one, keeps the previous records
as the tail in order, and the head is the new record whose id is the
maximum id of the previous records plus one (`listMax` being below-bounded
by and attained among the previous ids); on the empty sequence the single
resulting id is `0 + 1 = 1`. -/
theorem spec_C1 (randAge randAmt : ℚ) (today : String) (prev : List Row) :
    (onAddRow randAge randAmt today prev).length = prev.length + 1 ∧
    (onAddRow randAge randAmt today prev).tail = prev ∧
    (prev ≠ [] →
      ((onAddRow randAge randAmt today prev).map Row.id).head? =
        some (listMax (prev.map Row.id) + 1) ∧
      (∀ r ∈ prev, r.id ≤ listMax (prev.map Row.id)) ∧
      listMax (prev.map Row.id) ∈ prev.map Row.id) ∧
    (prev = [] → (onAddRow randAge randAmt today prev).map Row.id = [1]) := by
  refine ⟨by simp [onAddRow], rfl, fun hne => ⟨?_, ?_, ?_⟩, fun he => by subst he; rfl⟩
  · have hlen : prev.length != 0 := by
      simp [List.length_eq_zero]
      exact hne
    simp [onAddRow, hlen]
  · intro r hr
    exact le_listMax (List.mem_map_of_mem Row.id hr)
  · exact listMax_mem (by simpa using hne)

/-- C1 witness: adding to the concrete two-row state (ids 1, 2) puts a
record with id `3` at the head. -/
theorem spec_C1_witness :
    ((onAddRow 0 0 "2024-06-01" exRows).map Row.id).head? = some 3 := by
  have h := ((spec_C1 0 0 "2024-06-01" exRows).2.2.1 (by decide)).1
  have h3 : listMax (exRows.map Row.id) + 1 = 3 := by decide
  rw [h3] at h
  exact h

/-- C2 counterexample: on a state holding two rows that both have id `1`,
some record matches the target `"1"`, yet deleting shrinks the sequence
by two, not by one. -/
theorem spec_C2_counterexample :
    (∃ r ∈ dupRows, toString r.id = "1") ∧
    (deleteRow "1" dupRows).length ≠ dupRows.length - 1 := by decide

/-- Deleting with a matched target from a state whose id strings are
pairwise distinct shortens the sequence by exactly one. -/
theorem deleteRow_length_of_nodup {rows : List Row} {t : String}
    (hnd : (rows.map fun r => toString r.id).Nodup)
    (hex : ∃ r ∈ rows, toString r.id = t) :
    (deleteRow t rows).length = rows.length - 1 := by
  induction rows with
  | nil => simp at hex
  | cons a rest ih =>
    rw [List.map_cons, List.nodup_cons] at hnd
    obtain ⟨ha, hrest⟩ := hnd
    by_cases hat : toString a.id = t
    · have hnone : ∀ r ∈ rest, (toString r.id != t) = true := by
        intro r hr
        simp only [bne_iff_ne, ne_eq]
        intro hrt
        exact ha (by rw [hat, ← hrt]; exact List.mem_map_of_mem _ hr)
      have hdel : deleteRow t (a :: rest) = rest := by
        simp only [deleteRow, List.filter_cons]
        rw [if_neg (by simp [hat]), List.filter_eq_self.mpr hnone]
      rw [hdel]
      simp
    · obtain ⟨r, hr, hrt⟩ := hex
      rcases List.mem_cons.mp hr with rfl | hr2
      · exact absurd hrt hat
      · have hlen := ih hrest ⟨r, hr2, hrt⟩
        have hpos : 0 < rest.length := List.length_pos.mpr (List.ne_nil_of_mem hr2)
        have hcons : deleteRow t (a :: rest) = a :: deleteRow t rest := by
          simp only [deleteRow, List.filter_cons]
          rw [if_pos (by simp [bne_iff_ne]; exact hat)]
        rw [hcons]
        simp only [List.length_cons, deleteRow] at hlen ⊢
        omega

/-- C2 amended: deletion keeps a subsequence of the rows in order,
drops every record whose id string equals the target, keeps every other
record; when the id strings are pairwise distinct and some record
matches, the length drops by exactly one; when nothing matches, the
sequence is unchanged. -/
theorem spec_C2_amended (target : String) (rows : List Row) :
    List.Sublist (deleteRow target rows) rows ∧
    (∀ r ∈ deleteRow target rows, toString r.id ≠ target) ∧
    (∀ r ∈ rows, toString r.id ≠ target → r ∈ deleteRow target rows) ∧
    ((rows.map fun r => toString r.id).Nodup →
      (∃ r ∈ rows, toString r.id = target) →
      (deleteRow target rows).length = rows.length - 1) ∧
    ((∀ r ∈ rows, toString r.id ≠ target) → deleteRow target rows = rows) := by
  refine ⟨List.filter_sublist rows, ?_, ?_,
    fun hnd hex => deleteRow_length_of_nodup hnd hex, ?_⟩
  · intro r hr
    have := List.mem_filter.mp hr
    simpa [bne_iff_ne] using this.2
  · intro r hr hne
    exact List.mem_filter.mpr ⟨hr, by simpa [bne_iff_ne] using hne⟩
  · intro hall
    apply List.filter_eq_self.mpr
    intro r hr
    simpa [bne_iff_ne] using hall r hr

/-- C2 witness: on the concrete two-row state with ids 1 and 2, deleting
`"1"` shortens the list by one and deleting the absent `"3"` is a no-op. -/
theorem spec_C2_witness :
    (deleteRow "1" exRows).length = exRows.length - 1 ∧
    deleteRow "3" exRows = exRows := by
  refine ⟨(spec_C2_amended "1" exRows).2.2.2.1 (by decide) (by decide), ?_⟩
  exact (spec_C2_amended "3" exRows).2.2.2.2 (by decide)

/-- C3: when the target id occurs in the sequence, toggling preserves
the length and, position by position, negates exactly the `active` field
of the records whose id string matches the target, leaving their other
seven fields and every non-matching record unchanged. -/
theorem spec_C3 (target : String) (rows : List Row)
    (_hpres : ∃ r ∈ rows, toString r.id = target) :
    (toggleRow target rows).length = rows.length ∧
    ∀ i (h1 : i < rows.length) (h2 : i < (toggleRow target rows).length),
      (toString rows[i].id = target →
        (toggleRow target rows)[i].active = !rows[i].active ∧
        (toggleRow target rows)[i].id = rows[i].id ∧
        (toggleRow target rows)[i].name = rows[i].name ∧
        (toggleRow target rows)[i].age = rows[i].age ∧
        (toggleRow target rows)[i].city = rows[i].city ∧
        (toggleRow target rows)[i].product = rows[i].product ∧
        (toggleRow target rows)[i].amount = rows[i].amount ∧
        (toggleRow target rows)[i].joined = rows[i].joined) ∧
      (toString rows[i].id ≠ target → (toggleRow target rows)[i] = rows[i]) := by
  refine ⟨by simp [toggleRow], fun i h1 h2 => ⟨fun hmatch => ?_, fun hne => ?_⟩⟩
  · simp only [toggleRow, List.getElem_map]
    rw [if_pos hmatch]
    exact ⟨rfl, rfl, rfl, rfl, rfl, rfl, rfl, rfl⟩
  · simp only [toggleRow, List.getElem_map]
    rw [if_neg hne]

/-- C3 witness: toggling target `"1"` on the concrete two-row state
negates the `active` field of the first row. -/
theorem spec_C3_witness :
    ((toggleRow "1" exRows).get ⟨0, by decide⟩).active
      = !((exRows.get ⟨0, by decide⟩).active) := by
  have h := ((spec_C3 "1" exRows (by decide)).2 0 (by decide) (by decide)).1 (by decide)
  exact h.1

/-- An in-bounds `getD` is a member of the list. -/
theorem getD_mem {l : List String} {i : Nat} (h : i < l.length) :
    l.getD i "" ∈ l := by
  rw [List.getD_eq_getElem l "" h]
  exact List.getElem_mem h

/-- C5: generation yields exactly 100 records, the record at index `i`
has id `i + 1` (so ids are `1, …, 100` in order), and every record has
name `"Cliente {id}"`, age between 18 and 77, a city from the 10-element
city list, a product from the 10-element product list, and an amount that
is the two-decimal rendering of a value in `[0, 1000)`. -/
theorem spec_C5 (randAge randAmt : Nat → ℚ)
    (hra : ∀ k, 0 ≤ randAge k ∧ randAge k < 1)
    (hrm : ∀ k, 0 ≤ randAmt k ∧ randAmt k < 1) :
    (generateData randAge randAmt).length = 100 ∧
    (∀ i (_ : i < 100) (h2 : i < (generateData randAge randAmt).length),
      ((generateData randAge randAmt)[i]).id = i + 1) ∧
    cities.length = 10 ∧ products.length = 10 ∧
    ∀ r ∈ generateData randAge randAmt,
      r.name = "Cliente " ++ toString r.id ∧
      (18 ≤ r.age ∧ r.age ≤ 77) ∧
      r.city ∈ cities ∧
      r.product ∈ products ∧
      ∃ v : ℚ, 0 ≤ v ∧ v < 1000 ∧ r.amount = toFixed2 v := by
  refine ⟨by simp [generateData], ?_, rfl, rfl, ?_⟩
  · intro i _ h2
    simp [generateData, genRow]
  · intro r hr
    obtain ⟨k, hk, rfl⟩ := List.mem_map.mp hr
    refine ⟨rfl, ⟨Nat.le_add_left 18 _, ?_⟩, ?_, ?_, ?_⟩
    · have hlt : randAge (k + 1) * 60 < 60 := by
        have := mul_lt_mul_of_pos_right (hra (k + 1)).2 (show (0 : ℚ) < 60 by norm_num)
        simpa using this
      have hfl : ⌊randAge (k + 1) * 60⌋ < 60 := by
        rw [Int.floor_lt]
        exact_mod_cast hlt
      have htn : (⌊randAge (k + 1) * 60⌋).toNat ≤ 59 := by omega
      show (⌊randAge (k + 1) * 60⌋).toNat + 18 ≤ 77
      omega
    · exact getD_mem (Nat.mod_lt _ (by decide))
    · exact getD_mem (Nat.mod_lt _ (by decide))
    · refine ⟨randAmt (k + 1) * 1000,
        mul_nonneg (hrm (k + 1)).1 (by norm_num), ?_, rfl⟩
      have := mul_lt_mul_of_pos_right (hrm (k + 1)).2 (show (0 : ℚ) < 1000 by norm_num)
      simpa using this

/-- C5 witness: with the constant-zero random streams the generator
produces 100 rows. -/
theorem spec_C5_witness :
    (generateData (fun _ => 0) (fun _ => 0)).length = 100 :=
  (spec_C5 (fun _ => 0) (fun _ => 0)
    (fun _ => ⟨le_refl 0, by norm_num⟩) (fun _ => ⟨le_refl 0, by norm_num⟩)).1

/-- C6: a generated record has `active = false` exactly when its id is
divisible by three. -/
theorem spec_C6 (randAge randAmt : Nat → ℚ) (r : Row)
    (hr : r ∈ generateData randAge randAmt) :
    r.active = false ↔ r.id % 3 = 0 := by
  obtain ⟨k, hk, rfl⟩ := List.mem_map.mp hr
  show ((k + 1) % 3 != 0) = false ↔ (k + 1) % 3 = 0
  simp

/-- C6 witness: the generated record with id 3 (divisible by three) has
`active = false`. -/
theorem spec_C6_witness :
    (genRow (fun _ => 0) (fun _ => 0) 3).active = false ↔
      (genRow (fun _ => 0) (fun _ => 0) 3).id % 3 = 0 :=
  spec_C6 (fun _ => 0) (fun _ => 0) _
    (List.mem_map.mpr ⟨2, List.mem_range.mpr (by norm_num), rfl⟩)

/-- C8: pairwise-distinct ids hold of the generated state and are
preserved by `onAddRow`, delete, toggle, and reset. -/
theorem spec_C8 :
    (∀ ra rm, distinctIds (generateData ra rm)) ∧
    (∀ ra rm today prev, distinctIds prev →
      distinctIds (onAddRow ra rm today prev)) ∧
    (∀ t rows, distinctIds rows → distinctIds (deleteRow t rows)) ∧
    (∀ t rows, distinctIds rows → distinctIds (toggleRow t rows)) ∧
    (∀ c ra rm cur, distinctIds cur →
      distinctIds (onResetData c ra rm cur)) := by
  have hgen : ∀ ra rm, distinctIds (generateData ra rm) := by
    intro ra rm
    have hmap : (generateData ra rm).map Row.id
        = (List.range 100).map (fun k => k + 1) := rfl
    show ((generateData ra rm).map Row.id).Nodup
    rw [hmap]
    exact List.Nodup.map (fun a b h => by omega) (List.nodup_range 100)
  refine ⟨hgen, ?_, ?_, ?_, ?_⟩
  · intro ra rm today prev h
    by_cases hp : prev = []
    · subst hp
      show ((onAddRow ra rm today []).map Row.id).Nodup
      simp [onAddRow]
    · have hlen : (prev.length != 0) = true := by
        simp only [bne_iff_ne, ne_eq, List.length_eq_zero]
        exact hp
      have hmap : (onAddRow ra rm today prev).map Row.id
          = (listMax (prev.map Row.id) + 1) :: prev.map Row.id := by
        simp [onAddRow, hlen]
      show ((onAddRow ra rm today prev).map Row.id).Nodup
      rw [hmap]
      refine List.nodup_cons.mpr ⟨fun hmem => ?_, h⟩
      have := le_listMax hmem
      omega
  · intro t rows h
    exact List.Nodup.sublist ((List.filter_sublist rows).map Row.id) h
  · intro t rows h
    have hmap : (toggleRow t rows).map Row.id = rows.map Row.id := by
      rw [toggleRow, List.map_map]
      apply List.map_congr_left
      intro r _
      by_cases hm : toString r.id = t <;> simp [hm]
    show ((toggleRow t rows).map Row.id).Nodup
    rw [hmap]
    exact h
  · intro c ra rm cur h
    cases c
    · exact h
    · exact hgen ra rm

/-- C8 witness: on the concrete two-row state, delete and toggle keep
ids pairwise distinct. -/
theorem spec_C8_witness :
    distinctIds (deleteRow "1" exRows) ∧ distinctIds (toggleRow "2" exRows) :=
  ⟨spec_C8.2.2.1 "1" exRows (by decide), spec_C8.2.2.2.1 "2" exRows (by decide)⟩

/-- C9: two runs of the generator over any two pairs of random streams
agree in length and, record by record, on the id, name, city, product,
active and joined fields. -/
theorem spec_C9 (ra rm ra2 rm2 : Nat → ℚ) :
    (generateData ra rm).length = (generateData ra2 rm2).length ∧
    ∀ i (h1 : i < (generateData ra rm).length)
      (h2 : i < (generateData ra2 rm2).length),
      ((generateData ra rm)[i]).id = ((generateData ra2 rm2)[i]).id ∧
      ((generateData ra rm)[i]).name = ((generateData ra2 rm2)[i]).name ∧
      ((generateData ra rm)[i]).city = ((generateData ra2 rm2)[i]).city ∧
      ((generateData ra rm)[i]).product = ((generateData ra2 rm2)[i]).product ∧
      ((generateData ra rm)[i]).active = ((generateData ra2 rm2)[i]).active ∧
      ((generateData ra rm)[i]).joined = ((generateData ra2 rm2)[i]).joined := by
  refine ⟨by simp [generateData], fun i _h1 h2 => ?_⟩
  simp only [generateData, List.getElem_map, List.getElem_range]
  exact ⟨rfl, rfl, rfl, rfl, rfl, rfl⟩

/-- C9 witness: the first records of two runs with different random
streams share their id. -/
theorem spec_C9_witness :
    ((generateData (fun _ => 0) (fun _ => 0)).get ⟨0, by decide⟩).id
      = ((generateData (fun _ => 1 / 2) (fun _ => 1 / 2)).get ⟨0, by decide⟩).id := by
  have h := (spec_C9 (fun _ => 0) (fun _ => 0) (fun _ => 1 / 2) (fun _ => 1 / 2)).2
    0 (by decide) (by decide)
  exact h.1

/-- C10: the record built by `onAddRow` always has `active = true`
(regardless of its id, in particular when the id is divisible by three),
its city indexed by `id % 4` into the 4-element add-city list, and its
product indexed by `id % 3` into the 3-element add-product list. -/
theorem spec_C10 (randAge randAmt : ℚ) (today : String) (prev : List Row) :
    ∀ r, (onAddRow randAge randAmt today prev).head? = some r →
      r.active = true ∧
      addCities.length = 4 ∧ addProducts.length = 3 ∧
      r.city = addCities.getD (r.id % 4) "" ∧
      r.product = addProducts.getD (r.id % 3) "" := by
  intro r hr
  rw [show onAddRow randAge randAmt today prev
      = onAddRow randAge randAmt today prev from rfl] at hr
  simp only [onAddRow, List.head?_cons, Option.some.injEq] at hr
  subst hr
  exact ⟨rfl, rfl, rfl, rfl, rfl⟩

/-- C10 witness: adding to the two-row state (next id `3`, divisible by
three) still yields `active = true` on the new head record. -/
theorem spec_C10_witness :
    ((onAddRow 0 0 "2024-06-01" exRows).headI).active = true :=
  (spec_C10 0 0 "2024-06-01" exRows
    ((onAddRow 0 0 "2024-06-01" exRows).headI) rfl).1

/-- JS whitespace for `Number()` coercion and JSON. -/
def isWsChar (c : Char) : Bool :=
  c == ' ' || c == '\t' || c == '\n' || c == '\r'

/-- Drop surrounding whitespace, as `Number(string)` does. -/
def trimWs (cs : List Char) : List Char :=
  ((cs.dropWhile isWsChar).reverse.dropWhile isWsChar).reverse

/-- The natural number denoted by a digit string. -/
def digitsVal (ds : List Char) : Nat :=
  ds.foldl (fun a c => a * 10 + (c.toNat - 48)) 0

/-- Optional exponent suffix of a JS number literal, applied to the
mantissa. -/
def parseExp (mant : ℚ) (rest : List Char) : Option ℚ :=
  let sr : Bool × List Char :=
    match rest with
    | '-' :: r => (true, r)
    | '+' :: r => (false, r)
    | _ => (false, rest)
  match (sr.2).span Char.isDigit with
  | ([], _) => none
  | (eds, r3) =>
    if r3.isEmpty then
      let e : ℤ := if sr.1 then -(digitsVal eds : ℤ) else (digitsVal eds : ℤ)
      some (mant * (10 : ℚ) ^ e)
    else none

/-- Model of the `Number(string)` coercion: trim whitespace, empty means
`0`, otherwise a signed decimal literal with optional fraction and
exponent; anything else (including `Infinity` and hex forms, outside
this model) is NaN, i.e. `none`. -/
def jsStrToNumber (s : String) : Option ℚ :=
  let cs := trimWs s.toList
  if cs.isEmpty then some 0
  else
    let sgncs : ℚ × List Char :=
      match cs with
      | '-' :: r => (-1, r)
      | '+' :: r => (1, r)
      | _ => (1, cs)
    let ipr := (sgncs.2).span Char.isDigit
    let fpr : List Char × List Char :=
      match ipr.2 with
      | '.' :: r => r.span Char.isDigit
      | _ => ([], ipr.2)
    let hasDot : Bool :=
      match ipr.2 with
      | '.' :: _ => true
      | _ => false
    if ipr.1.isEmpty && fpr.1.isEmpty then none
    else
      let mant : ℚ :=
        sgncs.1 * ((digitsVal ipr.1 : ℚ) +
          (digitsVal fpr.1 : ℚ) / (10 : ℚ) ^ fpr.1.length)
      let tail := if hasDot then fpr.2 else ipr.2
      match tail with
      | [] => some mant
      | 'e' :: r => parseExp mant r
      | 'E' :: r => parseExp mant r
      | _ => none

/-- The JS values `formatCurrency` can receive. -/
inductive JsValue where
  | undefined
  | null
  | nan
  | num (q : ℚ)
  | bool (b : Bool)
  | str (s : String)
deriving DecidableEq

/-- `Number(value)`: `none` is NaN. -/
def jsNumber : JsValue → Option ℚ
  | .undefined => none
  | .null => some 0
  | .nan => none
  | .num q => some q
  | .bool b => some (if b then 1 else 0)
  | .str s => jsStrToNumber s

/-- Round half away from zero, the default rounding of
`Intl.NumberFormat` (ECMA-402 `roundingMode: "halfExpand"`). -/
def roundHalfExpand (x : ℚ) : ℤ :=
  if 0 ≤ x then ⌊x + 1 / 2⌋ else -⌊-x + 1 / 2⌋

/-- Insert `.` thousands separators into a digit string given least
significant digit first; `k` counts digits already emitted. -/
def group3aux : List Char → Nat → List Char
  | [], _ => []
  | c :: cs, k =>
    if k % 3 = 2 && !cs.isEmpty then c :: '.' :: group3aux cs (k + 1)
    else c :: group3aux cs (k + 1)

/-- Group a digit string in threes with `.`, pt-BR style. -/
def group3 (s : String) : String :=
  String.mk ((group3aux s.toList.reverse 0).reverse)

/-- Model of `num.toLocaleString('pt-BR', { style: 'currency',
currency: 'BRL' })` on the exact rational value: `R$`, a no-break space,
the integer part grouped in threes by `.`, a decimal comma and two cent
digits; a leading `-` for negative amounts. -/
def formatBRL (q : ℚ) : String :=
  let cents : ℤ := roundHalfExpand (q * 100)
  let sign := if cents < 0 then "-" else ""
  let n := cents.natAbs
  sign ++ "R$" ++ "\u00A0" ++ group3 (toString (n / 100)) ++ "," ++ pad2s (n % 100)

/-- `formatCurrency` (lines 89–94): empty string on `undefined`/`null`,
the value itself when `Number(value)` is NaN, otherwise the pt-BR BRL
rendering of the number. -/
def formatCurrency (value : JsValue) : JsValue :=
  match value with
  | .undefined => .str ""
  | .null => .str ""
  | v =>
    match jsNumber v with
    | none => v
    | some q => .str (formatBRL q)

/-- C4: `formatCurrency` yields `""` on `undefined` and `null`, returns
every other non-numeric input (NaN under `Number` coercion) unchanged,
and renders every numeric input as a pt-BR BRL currency string. -/
theorem spec_C4 :
    formatCurrency .undefined = .str "" ∧
    formatCurrency .null = .str "" ∧
    (∀ v, v ≠ JsValue.undefined → v ≠ JsValue.null → jsNumber v = none →
      formatCurrency v = v) ∧
    (∀ v q, v ≠ JsValue.undefined → v ≠ JsValue.null → jsNumber v = some q →
      formatCurrency v = .str (formatBRL q)) := by
  refine ⟨rfl, rfl, ?_, ?_⟩
  · intro v h1 h2 h3
    cases v with
    | undefined => exact absurd rfl h1
    | null => exact absurd rfl h2
    | nan => rfl
    | num q => simp [jsNumber] at h3
    | bool b => simp [jsNumber] at h3
    | str s =>
      have h3s : jsStrToNumber s = none := h3
      simp [formatCurrency, jsNumber, h3s]
  · intro v q h1 h2 h3
    cases v with
    | undefined => exact absurd rfl h1
    | null => exact absurd rfl h2
    | nan => simp [jsNumber] at h3
    | num q2 =>
      have hq : q2 = q := by simpa [jsNumber] using h3
      subst hq
      rfl
    | bool b =>
      have hq : (if b then (1 : ℚ) else 0) = q := by simpa [jsNumber] using h3
      subst hq
      cases b <;> rfl
    | str s =>
      have h3s : jsStrToNumber s = some q := h3
      simp [formatCurrency, jsNumber, h3s]

/-- C4 witness: the non-numeric string `"abc"` comes back unchanged and
the number `5` is rendered through `formatBRL`. -/
theorem spec_C4_witness :
    formatCurrency (JsValue.str "abc") = JsValue.str "abc" ∧
    formatCurrency (JsValue.num 5) = JsValue.str (formatBRL 5) :=
  ⟨spec_C4.2.2.1 (JsValue.str "abc") (by decide) (by decide) (by decide),
   spec_C4.2.2.2 (JsValue.num 5) 5 (by decide) (by decide) rfl⟩

/-- Leading JSON whitespace removal. -/
def skipWs (cs : List Char) : List Char :=
  cs.dropWhile isWsChar

/-- Expect the literal character sequence `lit` as a prefix. -/
def parseLit : List Char → List Char → Option (List Char)
  | [], rest => some rest
  | l :: ls, c :: rest => if c = l then parseLit ls rest else none
  | _ :: _, [] => none

/-- A hexadecimal digit, as in a JSON `\uXXXX` escape. -/
def isHexDigitChar (c : Char) : Bool :=
  c.isDigit || ('a' ≤ c && c ≤ 'f') || ('A' ≤ c && c ≤ 'F')

/-- Consume a JSON string body after the opening quote, up to and
including the closing quote.  Per the JSON grammar a backslash starts
one of the escapes `\" \\ \/ \b \f \n \r \t` or `\u` with four hex
digits, and raw control characters (below U+0020) are not allowed. -/
def jsonStrBody : List Char → Option (List Char)
  | [] => none
  | c :: cs =>
    if c = '\"' then some cs
    else if c = '\\' then
      match cs with
      | 'u' :: h1 :: h2 :: h3 :: h4 :: cs2 =>
        if isHexDigitChar h1 && isHexDigitChar h2 &&
            isHexDigitChar h3 && isHexDigitChar h4 then
          jsonStrBody cs2
        else none
      | c2 :: cs2 =>
        if c2 = '\"' || c2 = '\\' || c2 = '/' || c2 = 'b' || c2 = 'f' ||
            c2 = 'n' || c2 = 'r' || c2 = 't' then
          jsonStrBody cs2
        else none
      | [] => none
    else if c.toNat < 32 then none
    else jsonStrBody cs

/-- Optional exponent of a JSON number (after `e`/`E`). -/
def jsonExp (r : List Char) : Option (List Char) :=
  let r2 : List Char :=
    match r with
    | '-' :: x => x
    | '+' :: x => x
    | _ => r
  match r2.span Char.isDigit with
  | ([], _) => none
  | (_ :: _, x) => some x

/-- The integer part of a JSON number: a single `0`, or a nonzero digit
followed by digits — the grammar has no leading zeros. -/
def jsonIntPart : List Char → Option (List Char)
  | '0' :: rest => some rest
  | c :: rest => if c.isDigit then some (rest.dropWhile Char.isDigit) else none
  | [] => none

/-- Consume a JSON number starting at `cs`. -/
def jsonNum (cs : List Char) : Option (List Char) :=
  let cs1 : List Char :=
    match cs with
    | '-' :: r => r
    | _ => cs
  match jsonIntPart cs1 with
  | none => none
  | some rest =>
    let rest2 : Option (List Char) :=
      match rest with
      | '.' :: r =>
        match r.span Char.isDigit with
        | ([], _) => none
        | (_ :: _, r2) => some r2
      | _ => some rest
    match rest2 with
    | none => none
    | some r3 =>
      match r3 with
      | 'e' :: r4 => jsonExp r4
      | 'E' :: r4 => jsonExp r4
      | _ => some r3

mutual

/-- Consume one JSON value; `none` means `JSON.parse` would throw. -/
def jsonVal : Nat → List Char → Option (List Char)
  | 0, _ => none
  | fuel + 1, cs =>
    match skipWs cs with
    | [] => none
    | c :: rest =>
      if c = 'n' then parseLit ['u', 'l', 'l'] rest
      else if c = 't' then parseLit ['r', 'u', 'e'] rest
      else if c = 'f' then parseLit ['a', 'l', 's', 'e'] rest
      else if c = '\"' then jsonStrBody rest
      else if c = '\x7b' then
        match skipWs rest with
        | '\x7d' :: rest2 => some rest2
        | cs2 => jsonMembers fuel cs2
      else if c = '[' then
        match skipWs rest with
        | ']' :: rest2 => some rest2
        | cs2 => jsonItems fuel cs2
      else if c = '-' || c.isDigit then jsonNum (c :: rest)
      else none

/-- Consume the comma-separated items of a non-empty JSON array and the
closing bracket. -/
def jsonItems : Nat → List Char → Option (List Char)
  | 0, _ => none
  | fuel + 1, cs =>
    match jsonVal fuel cs with
    | none => none
    | some rest =>
      match skipWs rest with
      | ',' :: rest2 => jsonItems fuel rest2
      | ']' :: rest2 => some rest2
      | _ => none

/-- Consume the members of a non-empty JSON object and the closing
brace. -/
def jsonMembers : Nat → List Char → Option (List Char)
  | 0, _ => none
  | fuel + 1, cs =>
    match skipWs cs with
    | '\"' :: rest =>
      match jsonStrBody rest with
      | none => none
      | some rest2 =>
        match skipWs rest2 with
        | ':' :: rest3 =>
          match jsonVal fuel rest3 with
          | none => none
          | some rest4 =>
            match skipWs rest4 with
            | ',' :: rest5 => jsonMembers fuel rest5
            | '\x7d' :: rest5 => some rest5
            | _ => none
        | _ => none
    | _ => none

end

/-- `JSON.parse(raw)` succeeds exactly when `raw` is one JSON value with
nothing but whitespace after it (the fuel bounds nesting by twice the
length, which consuming one bracket per two fuel units never exhausts). -/
def jsonOk (s : String) : Bool :=
  match jsonVal (2 * s.length + 2) s.toList with
  | some rest => (skipWs rest).isEmpty
  | none => false

/-- The observable outcome of one `restoreColumnState` click: which
alert fired, whether `setColumnState` ran, and whether an exception
escaped the handler. -/
structure RestoreOutcome where
  alerted : Option String
  stateSet : Bool
  threw : Bool
deriving DecidableEq, Repr

/-- `restoreColumnState` (lines 136–142): reads the
`ag-grid-column-state` key (`stored`; `none` when nothing is saved).
A falsy value (`null` or the empty string) alerts `No saved state` and
returns; otherwise `JSON.parse(raw)` either throws — uncaught, so no
alert and no state change — or the state is set and the handler alerts
`Column state restored`. -/
def restoreColumnState (stored : Option String) : RestoreOutcome :=
  match stored with
  | none => { alerted := some "No saved state", stateSet := false, threw := false }
  | some raw =>
    if raw = "" then
      { alerted := some "No saved state", stateSet := false, threw := false }
    else if jsonOk raw then
      { alerted := some "Column state restored", stateSet := true, threw := false }
    else
      { alerted := none, stateSet := false, threw := true }

/-- C7 counterexample: with stored text `"nope"` — not valid JSON — the
handler raises an uncaught `JSON.parse` error and surfaces no alert,
against the claim that the invalid case also surfaces an alert. -/
theorem spec_C7_counterexample :
    jsonOk "nope" = false ∧
    (restoreColumnState (some "nope")).alerted = none ∧
    (restoreColumnState (some "nope")).threw = true := by decide

/-- C7 amended: a missing (or empty) stored value surfaces the
`No saved state` alert and performs no column-state change; a stored
value that parses as JSON restores the state and surfaces an alert; a
stored value that is not valid JSON raises an uncaught parse error,
with no alert and no column-state change. -/
theorem spec_C7_amended (stored : Option String) :
    (stored = none →
      restoreColumnState stored =
        { alerted := some "No saved state", stateSet := false, threw := false }) ∧
    (∀ raw, stored = some raw → raw = "" →
      restoreColumnState stored =
        { alerted := some "No saved state", stateSet := false, threw := false }) ∧
    (∀ raw, stored = some raw → raw ≠ "" → jsonOk raw = true →
      restoreColumnState stored =
        { alerted := some "Column state restored", stateSet := true, threw := false }) ∧
    (∀ raw, stored = some raw → raw ≠ "" → jsonOk raw = false →
      restoreColumnState stored =
        { alerted := none, stateSet := false, threw := true }) := by
  refine ⟨fun h => by subst h; rfl, ?_, ?_, ?_⟩
  · intro raw h he
    subst h
    simp [restoreColumnState, he]
  · intro raw h hne hok
    subst h
    simp [restoreColumnState, hne, hok]
  · intro raw h hne hok
    subst h
    simp [restoreColumnState, hne, hok]

/-- C7 witness: nothing stored alerts `No saved state`; the valid array
`"[]"` restores and alerts. -/
theorem spec_C7_witness :
    restoreColumnState none =
      { alerted := some "No saved state", stateSet := false, threw := false } ∧
    restoreColumnState (some "[]") =
      { alerted := some "Column state restored", stateSet := true, threw := false } :=
  ⟨(spec_C7_amended none).1 rfl,
   (spec_C7_amended (some "[]")).2.2.1 "[]" rfl (by decide) (by decide)⟩
